import Mathlib

/-!
Shallow embedding of the s7forge cached-fetch subsystem
(src/commands/workshop_items.rs, app_installation_path.rs,
workshop_path.rs, steam_library_paths.rs).

Maps and sets from the Rust code (FxHashMap / FxHashSet) are embedded as
association lists and plain lists, observed only through lookup and
membership.  All effectful interactions (filesystem, Steam client, name
resolver) are passed in as explicit oracle values in an environment
record, and the functions additionally report the effects they perform.
-/

namespace S7forge

/-- First-match association-list lookup; `alistInsert` prepends, so the
most recent insertion wins, matching `HashMap::insert` overwrite
semantics. -/
def alistLookup {α : Type} (m : List (Nat × α)) (k : Nat) : Option α :=
  match m with
  | [] => none
  | (k', v) :: rest => if k' = k then some v else alistLookup rest k

/-- Insert with overwrite semantics (`HashMap::insert`). -/
def alistInsert {α : Type} (m : List (Nat × α)) (k : Nat) (v : α) : List (Nat × α) :=
  (k, v) :: m

/-- Owner of a workshop item; the code reads `item.owner.steam_id64`.
Modelled from the spec: the item-record payload lives in the repository's
`core::workshop_item` module, which is not under src/; only the fields the
src/ commands touch are represented. -/
structure ItemOwner where
  steam_id64 : Nat
deriving DecidableEq, Repr

/-- Modelled from the spec: `ItemRecord` — opaque payload from the external
API (title, owner id, classification).  The src/ commands read
`published_file_id`, `file_type` and `owner.steam_id64`; `title` stands for
the rest of the opaque payload. -/
structure WorkshopItem where
  published_file_id : Nat
  file_type : String
  owner : ItemOwner
  title : String
deriving DecidableEq, Repr

/-- `EnhancedWorkshopItem` from workshop_items.rs lines 21-37. -/
structure EnhancedWorkshopItem where
  workshop_item : WorkshopItem
  creator_id : String
  creator_name : String
deriving DecidableEq, Repr

/-- `WorkshopItemCache` from workshop_items.rs lines 14-19. -/
structure WorkshopItemCache where
  items : List (Nat × WorkshopItem)
  deleted_items : List Nat
  timestamp : Nat
deriving DecidableEq, Repr

/-- `cache_duration_secs` of workshop_items.rs line 65 (24 hours). -/
def itemsCacheDurationSecs : Nat := 24 * 60 * 60

/-- `cache_duration_secs` of app_installation_path.rs line 31 (1 hour). -/
def appInstallCacheDurationSecs : Nat := 60 * 60

/-- `cache_duration_secs` of steam_library_paths.rs line 29 (1 hour). -/
def libraryPathsCacheDurationSecs : Nat := 60 * 60

/-- `cache_duration_secs` of workshop_path.rs line 31 (1 hour). -/
def workshopPathCacheDurationSecs : Nat := 60 * 60

/-- The freshness test of workshop_items.rs line 67:
`now.saturating_sub(cache_entry.timestamp) < cache_duration_secs`.
Lean's `Nat` subtraction is saturating, exactly like `saturating_sub`. -/
def itemsCacheValid (ts now : Nat) : Bool :=
  now - ts < itemsCacheDurationSecs

/-- The freshness test of app_installation_path.rs line 33. -/
def appInstallCacheValid (ts now : Nat) : Bool :=
  now - ts < appInstallCacheDurationSecs

/-- The freshness test of steam_library_paths.rs line 31. -/
def libraryPathsCacheValid (ts now : Nat) : Bool :=
  now - ts < libraryPathsCacheDurationSecs

/-- The freshness test of workshop_path.rs line 33. -/
def workshopPathCacheValid (ts now : Nat) : Bool :=
  now - ts < workshopPathCacheDurationSecs

/-- Outcome of the cache-load chain of workshop_items.rs lines 56-60:
the file may be missing, `fs::read` may fail, decoding may fail, or a
snapshot is decoded. -/
inductive LoadOutcome where
  | noFile
  | readFail
  | decodeFail
  | ok (c : WorkshopItemCache)
deriving DecidableEq, Repr

/-- Whether the decoded snapshot passes the whole-snapshot TTL test
(workshop_items.rs lines 61-70); any load failure counts as invalid. -/
def snapshotValid : LoadOutcome → Nat → Bool
  | LoadOutcome.ok c, now => itemsCacheValid c.timestamp now
  | _, _ => false

/-- `cached_items` / `deleted_items` after the load block of
workshop_items.rs lines 54-73: both stay empty unless the file decodes
and the snapshot is within TTL. -/
def loadSnapshot (load : LoadOutcome) (now : Nat) :
    List (Nat × WorkshopItem) × List Nat :=
  match load with
  | LoadOutcome.ok c =>
      if itemsCacheValid c.timestamp now then (c.items, c.deleted_items)
      else ([], [])
  | _ => ([], [])

/-- `ids_to_fetch` of workshop_items.rs lines 75-79: requested ids in
neither the positive map nor the negative set, duplicates and order of
the request preserved by `filter`. -/
def idsToFetch (item_ids : List Nat) (cached_items : List (Nat × WorkshopItem))
    (deleted_items : List Nat) : List Nat :=
  item_ids.filter fun id =>
    (alistLookup cached_items id).isNone && !(deleted_items.contains id)

/-- The classification filter of workshop_items.rs lines 163-170: keep
only records returned as `Some` with `file_type == "Community"`. -/
def filterCommunity (raw : List (Option WorkshopItem)) : List WorkshopItem :=
  raw.filterMap fun o =>
    match o with
    | some it => if it.file_type = "Community" then some it else none
    | none => none

/-- The insertion loop of workshop_items.rs lines 176-178. -/
def insertFetched (cached_items : List (Nat × WorkshopItem))
    (fetched_items : List WorkshopItem) : List (Nat × WorkshopItem) :=
  fetched_items.foldl (fun m it => alistInsert m it.published_file_id it) cached_items

/-- The negative-marking loop of workshop_items.rs lines 181-185. -/
def markDeleted (deleted_items : List Nat) (ids_for_tracking : List Nat)
    (fetched_ids : List Nat) : List Nat :=
  ids_for_tracking.foldl
    (fun s id => if fetched_ids.contains id then s else id :: s) deleted_items

/-- The merge of workshop_items.rs lines 163-194: filter to the expected
classification, insert positives, mark the rest deleted, stamp `now`. -/
def mergeSnapshot (cached_items : List (Nat × WorkshopItem)) (deleted_items : List Nat)
    (ids_for_tracking : List Nat) (raw : List (Option WorkshopItem)) (now : Nat) :
    WorkshopItemCache :=
  WorkshopItemCache.mk
    (insertFetched cached_items (filterCommunity raw))
    (markDeleted deleted_items ids_for_tracking
      ((filterCommunity raw).map fun it => it.published_file_id))
    now

/-- The output reconstruction of workshop_items.rs lines 82-85 and
199-202: `item_ids.iter().filter_map(|id| cached_items.get(id).cloned())`. -/
def orderOutput (item_ids : List Nat) (records : List (Nat × WorkshopItem)) :
    List WorkshopItem :=
  item_ids.filterMap fun id => alistLookup records id

/-- One enriched record (workshop_items.rs lines 95-101 / 213-219):
creator id is the owner id rendered as a string, creator name is the
resolved name or the `"[unknown]"` sentinel. -/
def enrichOne (names : List (Nat × String)) (item : WorkshopItem) :
    EnhancedWorkshopItem :=
  EnhancedWorkshopItem.mk item (toString item.owner.steam_id64)
    ((alistLookup names item.owner.steam_id64).getD "[unknown]")

/-- The enrichment map of workshop_items.rs lines 93-103 / 211-221. -/
def enrichItems (items : List WorkshopItem) (names : List (Nat × String)) :
    List EnhancedWorkshopItem :=
  items.map (enrichOne names)

/-- The external name resolver (the `fetch_creator_names` collaborator's
backend): one batched call from a list of owner ids to a name map. -/
structure Resolver where
  resolve : List Nat → Except String (List (Nat × String))

/-- Modelled from the spec: `fetch_creator_names` lives in
`utils::fetch_creator_names`, which is not under src/.  Per the spec it
collects the distinct set of owner identifiers across the records and
issues exactly one batched call to the NameResolver. -/
def fetch_creator_names (resolver : Resolver) (creator_ids : List Nat) :
    Except String (List (Nat × String)) :=
  resolver.resolve creator_ids.dedup

/-- Externally visible effects of one `workshop_items` invocation. -/
inductive Effect where
  | createDir
  | cacheRead
  | clientInit
  | bridge
  | cacheWrite
  | nameResolve
deriving DecidableEq, Repr

/-- Whether a read of the cache file was attempted (workshop_items.rs
lines 56-57: only when the file exists). -/
def readEffects : LoadOutcome → List Effect
  | LoadOutcome.noFile => []
  | _ => [Effect.cacheRead]

/-- Oracle environment for one `workshop_items` invocation: results of
`get_cache_dir`, `fs::create_dir_all`, the cache-load chain, the two
clock reads, `steam_manager::initialize_client`, the blocking fetch
bridge (lines 106-161, as a function of the ids sent), cache
serialization, and the ignored `fs::write` outcome. -/
structure ItemsEnv where
  getCacheDir : Except String Unit
  createDir : Except String Unit
  load : LoadOutcome
  now : Nat
  initClient : Except String Unit
  bridge : List Nat → Except String (List (Option WorkshopItem))
  saveNow : Nat
  serialize : Except String Unit
  writeOk : Bool

/-- Shared enrichment tail of both return paths (workshop_items.rs
lines 91-103 and 209-221): resolver failures propagate via `?`. -/
def enrichResult (items : List WorkshopItem) (resolver : Resolver) :
    Except String (List EnhancedWorkshopItem) :=
  match fetch_creator_names resolver (items.map fun it => it.owner.steam_id64) with
  | Except.error e => Except.error e
  | Except.ok names => Except.ok (enrichItems items names)

/-- Body of `workshop_items` after the cache directory is ready
(workshop_items.rs lines 54-221), given the loaded snapshot contents;
returns the result together with the effects performed after the load. -/
def workshopItemsCore (item_ids : List Nat) (resolver : Resolver) (env : ItemsEnv)
    (cached_items : List (Nat × WorkshopItem)) (deleted_items : List Nat) :
    Except String (List EnhancedWorkshopItem) × List Effect :=
  if idsToFetch item_ids cached_items deleted_items = [] then
    (enrichResult (orderOutput item_ids cached_items) resolver, [Effect.nameResolve])
  else
    match env.initClient with
    | Except.error e => (Except.error e, [Effect.clientInit])
    | Except.ok _ =>
      match env.bridge (idsToFetch item_ids cached_items deleted_items) with
      | Except.error e => (Except.error e, [Effect.clientInit, Effect.bridge])
      | Except.ok raw =>
        match env.serialize with
        | Except.error e =>
            (Except.error ("Failed to serialize cache: " ++ e),
             [Effect.clientInit, Effect.bridge])
        | Except.ok _ =>
            (enrichResult
               (orderOutput item_ids
                 (mergeSnapshot cached_items deleted_items
                   (idsToFetch item_ids cached_items deleted_items) raw
                   env.saveNow).items)
               resolver,
             [Effect.clientInit, Effect.bridge, Effect.cacheWrite, Effect.nameResolve])

/-- `workshop_items` (workshop_items.rs lines 39-222): empty-input fast
return, then `get_cache_dir()?` and `fs::create_dir_all(..)?` (both
propagate), then load and the core. -/
def workshop_items (item_ids : List Nat) (resolver : Resolver) (env : ItemsEnv) :
    Except String (List EnhancedWorkshopItem) × List Effect :=
  if item_ids = [] then (Except.ok [], [])
  else
    match env.getCacheDir with
    | Except.error e => (Except.error e, [])
    | Except.ok _ =>
      match env.createDir with
      | Except.error e =>
          (Except.error ("Failed to create cache directory: " ++ e), [Effect.createDir])
      | Except.ok _ =>
          ((workshopItemsCore item_ids resolver env
              (loadSnapshot env.load env.now).1 (loadSnapshot env.load env.now).2).1,
           Effect.createDir :: readEffects env.load ++
             (workshopItemsCore item_ids resolver env
               (loadSnapshot env.load env.now).1 (loadSnapshot env.load env.now).2).2)

/-- The positive-records map the output is read from, on whichever path
`workshop_items` takes (the loaded map on the all-cached path, the merged
map after a fetch). -/
def finalRecords (item_ids : List Nat) (env : ItemsEnv) : List (Nat × WorkshopItem) :=
  if idsToFetch item_ids (loadSnapshot env.load env.now).1
      (loadSnapshot env.load env.now).2 = [] then
    (loadSnapshot env.load env.now).1
  else
    match env.bridge (idsToFetch item_ids (loadSnapshot env.load env.now).1
        (loadSnapshot env.load env.now).2) with
    | Except.ok raw =>
        (mergeSnapshot (loadSnapshot env.load env.now).1
          (loadSnapshot env.load env.now).2
          (idsToFetch item_ids (loadSnapshot env.load env.now).1
            (loadSnapshot env.load env.now).2)
          raw env.saveNow).items
    | Except.error _ => (loadSnapshot env.load env.now).1

/-- `AppInstallPathCache` from app_installation_path.rs lines 11-15:
the full `Result<String, String>` is stored per app id. -/
structure AppInstallPathCache where
  paths : List (Nat × Except String String)
  timestamp : Nat
deriving Repr

/-- Outcome of the cache-load chain of app_installation_path.rs lines
19-26 (also reused for the re-read at save time, lines 91-120): either
some step failed (missing dir, missing file, read or decode failure) or
a cache decoded. -/
inductive AppLoadOutcome where
  | fail
  | ok (c : AppInstallPathCache)

/-- Outcome of the scan block of app_installation_path.rs lines 43-84.
`earlyErr` is an error propagated with `?` before the block completes
(`steam_library_paths()` failure at line 44, manifest read failure at
lines 54-55): it returns from the function early and is NOT cached.
`done` is the labelled-block result (lines 63-83), cached and returned.
The filesystem walk itself is abstracted as this oracle. -/
inductive ScanOutcome where
  | earlyErr (e : String)
  | done (r : Except String String)

/-- Oracle environment for one `app_installation_path` call. -/
structure AppPathEnv where
  load : AppLoadOutcome
  now : Nat
  scan : ScanOutcome
  saveDirOk : Bool
  saveLoad : AppLoadOutcome
  saveNow : Nat
  encodeOk : Bool

/-- The save block of app_installation_path.rs lines 86-132: re-read the
cache (defaulting to empty on any failure), insert the full result under
the app id, stamp the clock; returns the written cache content, `none`
when nothing was written (no cache dir or encode failure; a failed
`fs::write` is ignored by the code). -/
def appInstallSave (app_id : Nat) (result : Except String String) (env : AppPathEnv) :
    Option AppInstallPathCache :=
  if env.saveDirOk then
    if env.encodeOk then
      some (AppInstallPathCache.mk
        (alistInsert
          (match env.saveLoad with
           | AppLoadOutcome.ok c => c.paths
           | AppLoadOutcome.fail => []) app_id result)
        env.saveNow)
    else none
  else none

/-- The cache-miss continuation of app_installation_path.rs lines 43-135:
run the scan; an early `?` error returns without caching, a completed
scan result is cached and returned. -/
def appInstallScanPath (app_id : Nat) (env : AppPathEnv) :
    Except String String × Bool × Option AppInstallPathCache :=
  match env.scan with
  | ScanOutcome.earlyErr e => (Except.error e, true, none)
  | ScanOutcome.done r => (r, true, appInstallSave app_id r env)

/-- `app_installation_path` (app_installation_path.rs lines 17-135):
returns the result, whether the library/manifest scan ran, and the cache
content written (if any). -/
def app_installation_path (app_id : Nat) (env : AppPathEnv) :
    Except String String × Bool × Option AppInstallPathCache :=
  match env.load with
  | AppLoadOutcome.ok c =>
      if appInstallCacheValid c.timestamp env.now then
        match alistLookup c.paths app_id with
        | some r => (r, false, none)
        | none => appInstallScanPath app_id env
      else appInstallScanPath app_id env
  | AppLoadOutcome.fail => appInstallScanPath app_id env

/-- `WorkshopPathCache` from workshop_path.rs lines 11-15: the full
`Option<String>` is stored per app id. -/
structure WorkshopPathCache where
  paths : List (Nat × Option String)
  timestamp : Nat
deriving Repr

/-- Outcome of the cache-load chain of workshop_path.rs lines 19-26. -/
inductive WpLoadOutcome where
  | fail
  | ok (c : WorkshopPathCache)

/-- Oracle environment for one `workshop_path` call.  Its scan block
(workshop_path.rs lines 44-91) is total: `steam_install_paths` failures
and read failures all collapse to `None`, so the scan oracle is just the
`Option<String>` it produces. -/
structure WorkshopPathEnv where
  load : WpLoadOutcome
  now : Nat
  scan : Option String
  saveDirOk : Bool
  saveLoad : WpLoadOutcome
  saveNow : Nat
  encodeOk : Bool

/-- The save block of workshop_path.rs lines 93-139. -/
def workshopPathSave (app_id : Nat) (result : Option String) (env : WorkshopPathEnv) :
    Option WorkshopPathCache :=
  if env.saveDirOk then
    if env.encodeOk then
      some (WorkshopPathCache.mk
        (alistInsert
          (match env.saveLoad with
           | WpLoadOutcome.ok c => c.paths
           | WpLoadOutcome.fail => []) app_id result)
        env.saveNow)
    else none
  else none

/-- `workshop_path` (workshop_path.rs lines 17-142): returns the result,
whether the scan ran, and the cache content written (if any). -/
def workshop_path (app_id : Nat) (env : WorkshopPathEnv) :
    Option String × Bool × Option WorkshopPathCache :=
  match env.load with
  | WpLoadOutcome.ok c =>
      if workshopPathCacheValid c.timestamp env.now then
        match alistLookup c.paths app_id with
        | some r => (r, false, none)
        | none => (env.scan, true, workshopPathSave app_id env.scan env)
      else (env.scan, true, workshopPathSave app_id env.scan env)
  | WpLoadOutcome.fail => (env.scan, true, workshopPathSave app_id env.scan env)

/-- The timeout message of workshop_items.rs line 137. -/
def timeoutMsg : String := "Operation timed out waiting for Steam response"

/-- `Duration::from_secs(30)` of workshop_items.rs line 128, in
milliseconds. -/
def timeoutMs : Nat := 30000

/-- One iteration of the worker poll loop as observed by the worker:
what `rx_inner.try_recv()` would deliver at this iteration, and
`start_time.elapsed()` (in milliseconds) at this iteration. -/
structure PollObs where
  received : Option (Except String (List (Option WorkshopItem)))
  elapsedMs : Nat

/-- The worker poll loop of workshop_items.rs lines 130-141, run along a
trace of iteration observations: a delivered completion is returned
first; otherwise the loop returns the timeout error exactly when the
elapsed wall-clock time strictly exceeds the 30-second budget, and
otherwise sleeps and iterates.  `none` means the trace ended with the
loop still running. -/
def pollLoop : List PollObs → Option (Except String (List (Option WorkshopItem)))
  | [] => none
  | obs :: rest =>
    match obs.received with
    | some r => some r
    | none =>
      if timeoutMs < obs.elapsedMs then some (Except.error timeoutMsg)
      else pollLoop rest

/-! ## Helper lemmas -/

theorem alistLookup_insert {α : Type} (m : List (Nat × α)) (k id : Nat) (v : α) :
    alistLookup (alistInsert m k v) id = if k = id then some v else alistLookup m id := rfl

theorem alistLookup_nil {α : Type} (id : Nat) : alistLookup ([] : List (Nat × α)) id = none := rfl

theorem lookup_insertFetched (fetched : List WorkshopItem)
    (m : List (Nat × WorkshopItem)) (id : Nat) :
    (alistLookup (insertFetched m fetched) id).isSome = true ↔
      (∃ it ∈ fetched, it.published_file_id = id) ∨
        (alistLookup m id).isSome = true := by
  induction fetched generalizing m with
  | nil => simp [insertFetched]
  | cons it rest ih =>
    have hstep : insertFetched m (it :: rest) =
        insertFetched (alistInsert m it.published_file_id it) rest := rfl
    rw [hstep, ih]
    constructor
    · rintro (⟨x, hx, hxid⟩ | hbase)
      · exact Or.inl ⟨x, List.mem_cons_of_mem _ hx, hxid⟩
      · rw [alistLookup_insert] at hbase
        by_cases hk : it.published_file_id = id
        · exact Or.inl ⟨it, List.mem_cons_self _ _, hk⟩
        · rw [if_neg hk] at hbase
          exact Or.inr hbase
    · rintro (⟨x, hx, hxid⟩ | hbase)
      · rcases List.mem_cons.mp hx with rfl | hx'
        · right
          rw [alistLookup_insert, if_pos hxid]
          rfl
        · exact Or.inl ⟨x, hx', hxid⟩
      · right
        rw [alistLookup_insert]
        by_cases hk : it.published_file_id = id
        · rw [if_pos hk]; rfl
        · rw [if_neg hk]; exact hbase

theorem mem_markDeleted (ids fetched_ids : List Nat) (deleted : List Nat) (id : Nat) :
    id ∈ markDeleted deleted ids fetched_ids ↔
      id ∈ deleted ∨ (id ∈ ids ∧ id ∉ fetched_ids) := by
  induction ids generalizing deleted with
  | nil => simp [markDeleted]
  | cons a rest ih =>
    have hstep : markDeleted deleted (a :: rest) fetched_ids =
        markDeleted (if fetched_ids.contains a then deleted else a :: deleted)
          rest fetched_ids := rfl
    rw [hstep, ih]
    by_cases hc : fetched_ids.contains a = true
    · have ha : a ∈ fetched_ids := List.elem_iff.mp hc
      simp only [hc, if_pos]
      constructor
      · rintro (h | ⟨h1, h2⟩)
        · exact Or.inl h
        · exact Or.inr ⟨List.mem_cons_of_mem _ h1, h2⟩
      · rintro (h | ⟨h1, h2⟩)
        · exact Or.inl h
        · rcases List.mem_cons.mp h1 with rfl | h1'
          · exact absurd ha h2
          · exact Or.inr ⟨h1', h2⟩
    · have ha : a ∉ fetched_ids := fun hmem => hc (List.elem_iff.mpr hmem)
      simp only [hc]
      constructor
      · rintro (h | ⟨h1, h2⟩)
        · rcases List.mem_cons.mp h with rfl | h'
          · exact Or.inr ⟨List.mem_cons_self _ _, ha⟩
          · exact Or.inl h'
        · exact Or.inr ⟨List.mem_cons_of_mem _ h1, h2⟩
      · rintro (h | ⟨h1, h2⟩)
        · exact Or.inl (List.mem_cons_of_mem _ h)
        · rcases List.mem_cons.mp h1 with rfl | h1'
          · exact Or.inl (List.mem_cons_self _ _)
          · exact Or.inr ⟨h1', h2⟩

theorem mem_filterCommunity (raw : List (Option WorkshopItem)) (it : WorkshopItem) :
    it ∈ filterCommunity raw ↔ some it ∈ raw ∧ it.file_type = "Community" := by
  simp only [filterCommunity, List.mem_filterMap]
  constructor
  · rintro ⟨o, ho, heq⟩
    match o with
    | none => simp at heq
    | some x =>
      by_cases hty : x.file_type = "Community"
      · simp only [hty, if_pos] at heq
        cases heq
        exact ⟨ho, hty⟩
      · simp [hty] at heq
  · rintro ⟨ho, hty⟩
    exact ⟨some it, ho, by simp [hty]⟩

theorem mem_idsToFetch (item_ids : List Nat) (cached : List (Nat × WorkshopItem))
    (deleted : List Nat) (id : Nat) :
    id ∈ idsToFetch item_ids cached deleted ↔
      id ∈ item_ids ∧ alistLookup cached id = none ∧ id ∉ deleted := by
  simp only [idsToFetch, List.mem_filter, Bool.and_eq_true, Bool.not_eq_true']
  constructor
  · rintro ⟨h1, h2, h3⟩
    refine ⟨h1, Option.isNone_iff_eq_none.mp h2, fun hmem => ?_⟩
    have h3' : List.elem id deleted = false := h3
    rw [List.elem_iff.mpr hmem] at h3'
    cases h3'
  · rintro ⟨h1, h2, h3⟩
    refine ⟨h1, Option.isNone_iff_eq_none.mpr h2, ?_⟩
    by_cases hc : deleted.contains id = true
    · exact absurd (List.elem_iff.mp hc) h3
    · simpa using hc

theorem idsToFetch_empty_cache (item_ids : List Nat) :
    idsToFetch item_ids [] [] = item_ids := by
  induction item_ids with
  | nil => rfl
  | cons a rest ih =>
    simp only [idsToFetch, List.filter] at ih ⊢
    simp [ih, alistLookup]

theorem loadSnapshot_invalid (load : LoadOutcome) (now : Nat)
    (h : snapshotValid load now = false) : loadSnapshot load now = ([], []) := by
  cases load with
  | ok c =>
    simp only [snapshotValid] at h
    simp [loadSnapshot, h]
  | noFile => rfl
  | readFail => rfl
  | decodeFail => rfl

theorem enrichItems_map_item (L : List WorkshopItem) (names : List (Nat × String)) :
    (enrichItems L names).map (fun e => e.workshop_item) = L := by
  induction L with
  | nil => rfl
  | cons a t ih =>
    have hstep : (enrichItems (a :: t) names).map (fun e => e.workshop_item) =
        a :: (enrichItems t names).map (fun e => e.workshop_item) := rfl
    rw [hstep, ih]

theorem enrichItems_map_owner (L : List WorkshopItem) (names : List (Nat × String)) :
    (enrichItems L names).map (fun e => e.workshop_item.owner.steam_id64) =
      L.map (fun it => it.owner.steam_id64) := by
  induction L with
  | nil => rfl
  | cons a t ih =>
    have hstep : (enrichItems (a :: t) names).map (fun e => e.workshop_item.owner.steam_id64) =
        a.owner.steam_id64 :: (enrichItems t names).map (fun e => e.workshop_item.owner.steam_id64) := rfl
    rw [hstep, ih]
    rfl

/-! ## Claims -/

/-- C6: for every cache load, validity is decided by the whole-snapshot
test `now − timestamp < TTL` (the saturating subtraction agrees with the
integer difference test), with TTL 24 hours for the item-metadata cache
and 1 hour for the installation-path, library-path, and workshop-path
caches; the item-metadata load uses exactly this test. -/
theorem c6_ttl_contract (ts now : Nat) :
    (itemsCacheValid ts now = true ↔ (now : Int) - (ts : Int) < 24 * 60 * 60) ∧
    (appInstallCacheValid ts now = true ↔ (now : Int) - (ts : Int) < 60 * 60) ∧
    (libraryPathsCacheValid ts now = true ↔ (now : Int) - (ts : Int) < 60 * 60) ∧
    (workshopPathCacheValid ts now = true ↔ (now : Int) - (ts : Int) < 60 * 60) ∧
    (itemsCacheDurationSecs = 24 * 60 * 60) ∧
    (appInstallCacheDurationSecs = 60 * 60) ∧
    (libraryPathsCacheDurationSecs = 60 * 60) ∧
    (workshopPathCacheDurationSecs = 60 * 60) ∧
    (∀ c : WorkshopItemCache, loadSnapshot (LoadOutcome.ok c) now =
      if itemsCacheValid c.timestamp now then (c.items, c.deleted_items) else ([], [])) := by
  refine ⟨?_, ?_, ?_, ?_, rfl, rfl, rfl, rfl, fun c => rfl⟩ <;>
    simp only [itemsCacheValid, appInstallCacheValid, libraryPathsCacheValid,
      workshopPathCacheValid, itemsCacheDurationSecs, appInstallCacheDurationSecs,
      libraryPathsCacheDurationSecs, workshopPathCacheDurationSecs,
      decide_eq_true_eq] <;> omega

/-- C6 witness: a snapshot one second inside the 24-hour budget is valid. -/
theorem c6_witness : itemsCacheValid 0 86399 = true :=
  (c6_ttl_contract 0 86399).1.mpr (by decide)

/-- C9: a future-dated snapshot (timestamp strictly greater than the
clock) has saturating age 0 and is therefore accepted as valid by all
four cache-freshness tests. -/
theorem c9_future_timestamp_valid (ts now : Nat) (h : now < ts) :
    now - ts = 0 ∧
    itemsCacheValid ts now = true ∧
    appInstallCacheValid ts now = true ∧
    libraryPathsCacheValid ts now = true ∧
    workshopPathCacheValid ts now = true := by
  have hz : now - ts = 0 := Nat.sub_eq_zero_of_le (Nat.le_of_lt h)
  refine ⟨hz, ?_, ?_, ?_, ?_⟩ <;>
    simp [itemsCacheValid, appInstallCacheValid, libraryPathsCacheValid,
      workshopPathCacheValid, itemsCacheDurationSecs, appInstallCacheDurationSecs,
      libraryPathsCacheDurationSecs, workshopPathCacheDurationSecs, hz]

/-- C9 witness: at clock 3 a snapshot stamped 10 is treated as valid. -/
theorem c9_witness :
    (3 - 10 = 0) ∧
    itemsCacheValid 10 3 = true ∧
    appInstallCacheValid 10 3 = true ∧
    libraryPathsCacheValid 10 3 = true ∧
    workshopPathCacheValid 10 3 = true :=
  c9_future_timestamp_valid 10 3 (by decide)

/-- C8: on the empty requested id list, `workshop_items` returns the
empty list successfully and performs no effect at all: no cache read or
write, no directory creation, no client initialization, no bridge fetch,
no name resolution. -/
theorem c8_empty_fast_path (resolver : Resolver) (env : ItemsEnv) :
    workshop_items [] resolver env = (Except.ok [], []) := rfl

/-- C2: the fetch delta.  If the loaded snapshot is invalid (load
failure or age at or beyond the TTL) the delta sent to the bridge covers
exactly the deduplicated requested set; if it is valid the delta
contains exactly the requested ids present in neither the positive
records map nor the negative set. -/
theorem c2_fetch_delta (item_ids : List Nat) (load : LoadOutcome) (now : Nat) :
    (snapshotValid load now = false →
      ∀ id, id ∈ idsToFetch item_ids (loadSnapshot load now).1 (loadSnapshot load now).2 ↔
        id ∈ item_ids.dedup) ∧
    (∀ c, load = LoadOutcome.ok c → snapshotValid load now = true →
      ∀ id, id ∈ idsToFetch item_ids (loadSnapshot load now).1 (loadSnapshot load now).2 ↔
        id ∈ item_ids ∧ alistLookup c.items id = none ∧ id ∉ c.deleted_items) := by
  constructor
  · intro hinv id
    rw [loadSnapshot_invalid load now hinv]
    rw [idsToFetch_empty_cache]
    exact (List.mem_dedup).symm
  · rintro c rfl hval id
    simp only [snapshotValid] at hval
    simp only [loadSnapshot, hval, if_pos]
    exact mem_idsToFetch item_ids c.items c.deleted_items id

/-- C2 witness: with no cache file at clock 0, the delta for the request
`[5, 5, 9]` covers the deduplicated set. -/
theorem c2_witness :
    5 ∈ idsToFetch [5, 5, 9] (loadSnapshot LoadOutcome.noFile 0).1
        (loadSnapshot LoadOutcome.noFile 0).2 ↔
      5 ∈ ([5, 5, 9] : List Nat).dedup :=
  (c2_fetch_delta [5, 5, 9] LoadOutcome.noFile 0).1 rfl 5

/-- C3: the merge.  Every delta id for which the fetch returned a record
with the expected `"Community"` classification ends up present in the
positive records map; every other delta id (absent, returned empty, or
returned with another classification) ends up in the negative set; the
snapshot timestamp becomes the save-time clock. -/
theorem c3_merge_classification (cached : List (Nat × WorkshopItem)) (deleted : List Nat)
    (delta : List Nat) (raw : List (Option WorkshopItem)) (now id : Nat)
    (hid : id ∈ delta) :
    ((∃ it, some it ∈ raw ∧ it.published_file_id = id ∧ it.file_type = "Community") →
      (alistLookup (mergeSnapshot cached deleted delta raw now).items id).isSome = true) ∧
    ((∀ it, some it ∈ raw → it.published_file_id = id → ¬ it.file_type = "Community") →
      id ∈ (mergeSnapshot cached deleted delta raw now).deleted_items) ∧
    (mergeSnapshot cached deleted delta raw now).timestamp = now := by
  refine ⟨?_, ?_, rfl⟩
  · rintro ⟨it, hmem, hpid, hty⟩
    have hit : it ∈ filterCommunity raw := (mem_filterCommunity raw it).mpr ⟨hmem, hty⟩
    exact (lookup_insertFetched (filterCommunity raw) cached id).mpr
      (Or.inl ⟨it, hit, hpid⟩)
  · intro hnone
    have hnot : id ∉ (filterCommunity raw).map (fun it => it.published_file_id) := by
      intro hmem
      rcases List.mem_map.mp hmem with ⟨it, hit, hpid⟩
      rcases (mem_filterCommunity raw it).mp hit with ⟨hraw, hty⟩
      exact hnone it hraw hpid hty
    exact (mem_markDeleted delta
      ((filterCommunity raw).map fun it => it.published_file_id) deleted id).mpr
      (Or.inr ⟨hid, hnot⟩)

/-- C3 witness: with delta `[101, 102]` and a fetch returning only the
Community item 101, id 101 lands in the records map, id 102 in the
negative set, and the timestamp is refreshed. -/
theorem c3_witness :
    (alistLookup (mergeSnapshot [] [] [101, 102]
        [some (WorkshopItem.mk 101 "Community" (ItemOwner.mk 7) "A")] 99).items 101).isSome
      = true ∧
    (mergeSnapshot [] [] [101, 102]
        [some (WorkshopItem.mk 101 "Community" (ItemOwner.mk 7) "A")] 99).timestamp = 99 :=
  ⟨(c3_merge_classification [] [] [101, 102]
      [some (WorkshopItem.mk 101 "Community" (ItemOwner.mk 7) "A")] 99 101
      (by decide)).1
    ⟨WorkshopItem.mk 101 "Community" (ItemOwner.mk 7) "A",
      List.mem_cons_self _ _, rfl, rfl⟩,
   (c3_merge_classification [] [] [101, 102]
      [some (WorkshopItem.mk 101 "Community" (ItemOwner.mk 7) "A")] 99 101
      (by decide)).2.2⟩

/-- A resolver oracle that always resolves to an empty name map. -/
def nullResolver : Resolver := Resolver.mk fun _ => Except.ok []

/-- Environment in which `fs::create_dir_all` fails (everything else
succeeds). -/
def envCreateDirFail : ItemsEnv :=
  ItemsEnv.mk (Except.ok ()) (Except.error "permission denied") LoadOutcome.noFile 0
    (Except.ok ()) (fun _ => Except.ok []) 0 (Except.ok ()) true

/-- Environment in which cache serialization fails (everything else
succeeds). -/
def envSerializeFail : ItemsEnv :=
  ItemsEnv.mk (Except.ok ()) (Except.ok ()) LoadOutcome.noFile 0
    (Except.ok ()) (fun _ => Except.ok []) 0 (Except.error "boom") true

theorem workshopItemsCore_env_agnostic (item_ids : List Nat) (resolver : Resolver)
    (e₁ e₂ : ItemsEnv) (cached : List (Nat × WorkshopItem)) (deleted : List Nat)
    (h1 : e₁.initClient = e₂.initClient) (h2 : e₁.bridge = e₂.bridge)
    (h3 : e₁.saveNow = e₂.saveNow) (h4 : e₁.serialize = e₂.serialize) :
    workshopItemsCore item_ids resolver e₁ cached deleted =
      workshopItemsCore item_ids resolver e₂ cached deleted := by
  simp only [workshopItemsCore, h1, h2, h3, h4]

/-- C1 counterexample: cache-layer failures CAN surface to the caller.
A failure of `fs::create_dir_all` (workshop_items.rs lines 48-49) and a
failure of cache serialization (lines 195-196) both make
`workshop_items` return an error instead of degrading to "no cache". -/
theorem c1_counterexample :
    (workshop_items [1] nullResolver envCreateDirFail).1 =
      Except.error "Failed to create cache directory: permission denied" ∧
    (workshop_items [1] nullResolver envSerializeFail).1 =
      Except.error "Failed to serialize cache: boom" := by
  constructor <;> rfl

/-- C1 amended: failures to read or decode the cache file degrade to
"no cache" (the result is the one a missing cache file produces), and
the ignored `fs::write` outcome never influences the result; but — as
the counterexample shows — cache-directory creation failures and
serialization failures are returned to the caller. -/
theorem c1_amended_cache_failures (item_ids : List Nat) (resolver : Resolver)
    (gcd cd init ser : Except String Unit)
    (bridge : List Nat → Except String (List (Option WorkshopItem)))
    (now saveNow : Nat) (load : LoadOutcome) (w w' : Bool) :
    (workshop_items item_ids resolver
        (ItemsEnv.mk gcd cd LoadOutcome.readFail now init bridge saveNow ser w)).1 =
      (workshop_items item_ids resolver
        (ItemsEnv.mk gcd cd LoadOutcome.noFile now init bridge saveNow ser w)).1 ∧
    (workshop_items item_ids resolver
        (ItemsEnv.mk gcd cd LoadOutcome.decodeFail now init bridge saveNow ser w)).1 =
      (workshop_items item_ids resolver
        (ItemsEnv.mk gcd cd LoadOutcome.noFile now init bridge saveNow ser w)).1 ∧
    workshop_items item_ids resolver
        (ItemsEnv.mk gcd cd load now init bridge saveNow ser w) =
      workshop_items item_ids resolver
        (ItemsEnv.mk gcd cd load now init bridge saveNow ser w') := by
  refine ⟨?_, ?_, rfl⟩ <;>
    · by_cases he : item_ids = [] <;> cases gcd <;> cases cd <;>
        (simp [workshop_items, he, loadSnapshot];
          all_goals
            exact congrArg Prod.fst
              (workshopItemsCore_env_agnostic _ _ _ _ _ _ rfl rfl rfl rfl))

/-- Inversion of a successful `workshop_items` run: either the request
was empty, or the output is the enrichment of the request-ordered
restriction to the final records map, with exactly one name-resolution
effect. -/
theorem workshop_items_ok_inv (item_ids : List Nat) (resolver : Resolver) (env : ItemsEnv)
    (out : List EnhancedWorkshopItem) (effs : List Effect)
    (h : workshop_items item_ids resolver env = (Except.ok out, effs)) :
    (item_ids = [] ∧ out = [] ∧ effs = []) ∨
    (item_ids ≠ [] ∧ ∃ names,
      fetch_creator_names resolver
          ((orderOutput item_ids (finalRecords item_ids env)).map
            (fun it => it.owner.steam_id64)) = Except.ok names ∧
      out = enrichItems (orderOutput item_ids (finalRecords item_ids env)) names ∧
      effs.count Effect.nameResolve = 1) := by
  by_cases he : item_ids = []
  · subst he
    have h0 : workshop_items [] resolver env = (Except.ok [], []) := rfl
    rw [h0] at h
    simp only [Prod.mk.injEq, Except.ok.injEq] at h
    exact Or.inl ⟨rfl, h.1.symm, h.2.symm⟩
  · refine Or.inr ⟨he, ?_⟩
    simp only [workshop_items] at h
    rw [if_neg he] at h
    split at h
    · simp at h
    split at h
    · simp at h
    by_cases hd : idsToFetch item_ids (loadSnapshot env.load env.now).1
        (loadSnapshot env.load env.now).2 = []
    · have hfr : finalRecords item_ids env = (loadSnapshot env.load env.now).1 := by
        simp only [finalRecords]
        rw [if_pos hd]
      simp only [workshopItemsCore] at h
      rw [if_pos hd] at h
      simp only [enrichResult] at h
      split at h
      · simp at h
      rename_i names heqn
      simp only [Prod.mk.injEq, Except.ok.injEq] at h
      refine ⟨names, ?_, ?_, ?_⟩
      · rw [hfr]
        exact heqn
      · rw [hfr]
        exact h.1.symm
      · rw [← h.2]
        cases hl : env.load <;> rfl
    · simp only [workshopItemsCore] at h
      rw [if_neg hd] at h
      split at h
      · simp at h
      split at h
      · simp at h
      rename_i raw heqb
      split at h
      · simp at h
      have hfr : finalRecords item_ids env =
          (mergeSnapshot (loadSnapshot env.load env.now).1 (loadSnapshot env.load env.now).2
            (idsToFetch item_ids (loadSnapshot env.load env.now).1
              (loadSnapshot env.load env.now).2) raw env.saveNow).items := by
        simp only [finalRecords]
        rw [if_neg hd, heqb]
      simp only [enrichResult] at h
      split at h
      · simp at h
      rename_i names heqn
      simp only [Prod.mk.injEq, Except.ok.injEq] at h
      refine ⟨names, ?_, ?_, ?_⟩
      · rw [hfr]
        exact heqn
      · rw [hfr]
        exact h.1.symm
      · rw [← h.2]
        cases hl : env.load <;> rfl

/-- C4: whenever `workshop_items` succeeds, the output is exactly the
requested sequence — order and duplicates preserved — restricted to the
ids present in the final (post-merge) records map, each entry carrying
that record; absent ids are dropped without producing an error. -/
theorem c4_order_preservation (item_ids : List Nat) (resolver : Resolver) (env : ItemsEnv)
    (out : List EnhancedWorkshopItem) (effs : List Effect)
    (h : workshop_items item_ids resolver env = (Except.ok out, effs)) :
    out.map (fun e => e.workshop_item) = orderOutput item_ids (finalRecords item_ids env) := by
  rcases workshop_items_ok_inv item_ids resolver env out effs h with
    ⟨he, hout, _⟩ | ⟨_, names, _, hout, _⟩
  · subst he
    subst hout
    rfl
  · rw [hout]
    exact enrichItems_map_item _ names

/-- Sample item for concrete runs. -/
def itemA : WorkshopItem := WorkshopItem.mk 101 "Community" (ItemOwner.mk 7) "A"

/-- Sample resolver for concrete runs. -/
def sampleResolver : Resolver := Resolver.mk fun _ => Except.ok [(7, "alice")]

/-- Sample environment for concrete runs: no cache file; bridge returns
the single Community item 101. -/
def sampleEnv : ItemsEnv :=
  ItemsEnv.mk (Except.ok ()) (Except.ok ()) LoadOutcome.noFile 1000
    (Except.ok ()) (fun _ => Except.ok [some itemA]) 1000 (Except.ok ()) true

/-- C4 witness: requesting `[101, 102]` when the bridge returns only
item 101 yields exactly the record for 101, in request order. -/
theorem c4_witness :
    ([EnhancedWorkshopItem.mk itemA "7" "alice"].map fun e => e.workshop_item) =
      orderOutput [101, 102] (finalRecords [101, 102] sampleEnv) :=
  c4_order_preservation [101, 102] sampleResolver sampleEnv
    [EnhancedWorkshopItem.mk itemA "7" "alice"]
    [Effect.createDir, Effect.clientInit, Effect.bridge, Effect.cacheWrite,
      Effect.nameResolve] rfl

/-- C5: on every successful non-empty run, exactly one batched resolver
call is issued, its argument is the deduplicated (distinct, same
membership) set of owner ids across the output records, and each output
record carries the resolved display name for its owner or the sentinel
`"[unknown]"` when that owner is missing from the resolved map. -/
theorem c5_enrichment (item_ids : List Nat) (resolver : Resolver) (env : ItemsEnv)
    (out : List EnhancedWorkshopItem) (effs : List Effect)
    (h : workshop_items item_ids resolver env = (Except.ok out, effs)) (hne : out ≠ []) :
    effs.count Effect.nameResolve = 1 ∧
    ∃ names,
      resolver.resolve ((out.map fun e => e.workshop_item.owner.steam_id64).dedup) =
        Except.ok names ∧
      ((out.map fun e => e.workshop_item.owner.steam_id64).dedup).Nodup ∧
      (∀ x, x ∈ (out.map fun e => e.workshop_item.owner.steam_id64).dedup ↔
        x ∈ out.map fun e => e.workshop_item.owner.steam_id64) ∧
      ∀ e ∈ out, e.creator_name =
        (alistLookup names e.workshop_item.owner.steam_id64).getD "[unknown]" := by
  rcases workshop_items_ok_inv item_ids resolver env out effs h with
    ⟨_, hout, _⟩ | ⟨_, names, hres, hout, hcount⟩
  · exact absurd hout hne
  · refine ⟨hcount, names, ?_, List.nodup_dedup _, fun x => List.mem_dedup, ?_⟩
    · rw [hout, enrichItems_map_owner]
      exact hres
    · intro e hee
      rw [hout] at hee
      rcases List.mem_map.mp hee with ⟨it, _, rfl⟩
      rfl

/-- C5 witness: the concrete run for request `[101, 102]` resolves the
single owner 7 once and attaches the resolved name. -/
theorem c5_witness :
    ([Effect.createDir, Effect.clientInit, Effect.bridge, Effect.cacheWrite,
        Effect.nameResolve] : List Effect).count Effect.nameResolve = 1 ∧
    ∃ names,
      sampleResolver.resolve
          (([EnhancedWorkshopItem.mk itemA "7" "alice"].map
            fun e => e.workshop_item.owner.steam_id64).dedup) = Except.ok names ∧
      (([EnhancedWorkshopItem.mk itemA "7" "alice"].map
        fun e => e.workshop_item.owner.steam_id64).dedup).Nodup ∧
      (∀ x, x ∈ ([EnhancedWorkshopItem.mk itemA "7" "alice"].map
          fun e => e.workshop_item.owner.steam_id64).dedup ↔
        x ∈ [EnhancedWorkshopItem.mk itemA "7" "alice"].map
          fun e => e.workshop_item.owner.steam_id64) ∧
      ∀ e ∈ [EnhancedWorkshopItem.mk itemA "7" "alice"], e.creator_name =
        (alistLookup names e.workshop_item.owner.steam_id64).getD "[unknown]" :=
  c5_enrichment [101, 102] sampleResolver sampleEnv
    [EnhancedWorkshopItem.mk itemA "7" "alice"]
    [Effect.createDir, Effect.clientInit, Effect.bridge, Effect.cacheWrite,
      Effect.nameResolve] rfl (by simp)

/-- C7: the worker poll loop.  When the external API never delivers a
completion, the loop returns the distinct timeout failure exactly when
some poll observes elapsed wall-clock time strictly exceeding the
30-second budget — never earlier; a completion available at poll time is
returned in preference to the timeout; and along any trace that advances
at least 10 ms per iteration (the fixed sleep), the loop has terminated
within 3002 iterations — it never loops indefinitely. -/
theorem c7_timeout (trace : List PollObs) :
    ((∀ obs ∈ trace, obs.received = none) →
      (pollLoop trace = some (Except.error timeoutMsg) ↔
        ∃ obs ∈ trace, timeoutMs < obs.elapsedMs)) ∧
    (∀ (obs : PollObs) (rest : List PollObs) (r : Except String (List (Option WorkshopItem))),
      obs.received = some r → pollLoop (obs :: rest) = some r) ∧
    ((∀ obs ∈ trace, obs.received = none) →
      (∀ i (h : i < trace.length), 10 * i ≤ (trace.get ⟨i, h⟩).elapsedMs) →
      3002 ≤ trace.length → (pollLoop trace).isSome = true) := by
  have main : ∀ t : List PollObs, (∀ obs ∈ t, obs.received = none) →
      (pollLoop t = some (Except.error timeoutMsg) ↔
        ∃ obs ∈ t, timeoutMs < obs.elapsedMs) := by
    intro t
    induction t with
    | nil =>
      intro _
      simp [pollLoop]
    | cons obs rest ih =>
      intro hnone
      have hobs : obs.received = none := hnone obs (List.mem_cons_self _ _)
      have hrest := ih fun o ho => hnone o (List.mem_cons_of_mem _ ho)
      simp only [pollLoop, hobs]
      by_cases ht : timeoutMs < obs.elapsedMs
      · rw [if_pos ht]
        simp only [true_iff]
        exact ⟨obs, List.mem_cons_self _ _, ht⟩
      · rw [if_neg ht, hrest]
        constructor
        · rintro ⟨o, ho, hgt⟩
          exact ⟨o, List.mem_cons_of_mem _ ho, hgt⟩
        · rintro ⟨o, ho, hgt⟩
          rcases List.mem_cons.mp ho with rfl | ho'
          · exact absurd hgt ht
          · exact ⟨o, ho', hgt⟩
  refine ⟨main trace, ?_, ?_⟩
  · intro obs rest r hr
    simp [pollLoop, hr]
  · intro hnone hstep hlen
    have h1 : 3001 < trace.length := by omega
    have hgt : timeoutMs < (trace.get ⟨3001, h1⟩).elapsedMs := by
      have := hstep 3001 h1
      simp only [timeoutMs]
      omega
    have hto := (main trace hnone).mpr ⟨trace.get ⟨3001, h1⟩, trace.get_mem 3001 h1, hgt⟩
    rw [hto]
    rfl

/-- C7 witness: a trace that never delivers a completion and whose
second poll observes 30001 ms elapsed makes the loop return the timeout
error. -/
theorem c7_witness :
    pollLoop [PollObs.mk none 0, PollObs.mk none 30001] =
      some (Except.error timeoutMsg) :=
  ((c7_timeout [PollObs.mk none 0, PollObs.mk none 30001]).1
    (by
      intro obs ho
      rcases List.mem_cons.mp ho with rfl | ho'
      · rfl
      rcases List.mem_cons.mp ho' with rfl | ho''
      · rfl
      · exact absurd ho'' (List.not_mem_nil _))).mpr
    ⟨PollObs.mk none 30001,
      List.mem_cons_of_mem _ (List.mem_cons_self _ _), by decide⟩

/-- C10: negative results are cached by the path commands.  Within the
1-hour TTL, a cached entry for the requested app id — even a cached
`Err` (app_installation_path) or a cached `None` (workshop_path) — is
returned as-is, without running the library/manifest scan and without
rewriting the cache; and whenever either command writes its cache, the
written map carries the full computed result (including `Err` / `None`)
under the requested app id. -/
theorem c10_negative_path_caching (app_id : Nat) (envA : AppPathEnv)
    (envW : WorkshopPathEnv) (cA : AppInstallPathCache) (cW : WorkshopPathCache)
    (rA : Except String String) (rW : Option String) :
    (envA.load = AppLoadOutcome.ok cA → appInstallCacheValid cA.timestamp envA.now = true →
      alistLookup cA.paths app_id = some rA →
      app_installation_path app_id envA = (rA, false, none)) ∧
    (∀ saved, (app_installation_path app_id envA).2.2 = some saved →
      alistLookup saved.paths app_id = some (app_installation_path app_id envA).1) ∧
    (envW.load = WpLoadOutcome.ok cW → workshopPathCacheValid cW.timestamp envW.now = true →
      alistLookup cW.paths app_id = some rW →
      workshop_path app_id envW = (rW, false, none)) ∧
    (∀ saved, (workshop_path app_id envW).2.2 = some saved →
      alistLookup saved.paths app_id = some (workshop_path app_id envW).1) := by
  have hsaveA : ∀ saved, ∀ r : Except String String,
      appInstallSave app_id r envA = some saved →
      alistLookup saved.paths app_id = some r := by
    intro saved r hs
    simp only [appInstallSave] at hs
    split at hs
    · split at hs
      · cases hs
        simp [alistLookup_insert]
      · cases hs
    · cases hs
  have hsaveW : ∀ saved, ∀ r : Option String,
      workshopPathSave app_id r envW = some saved →
      alistLookup saved.paths app_id = some r := by
    intro saved r hs
    simp only [workshopPathSave] at hs
    split at hs
    · split at hs
      · cases hs
        simp [alistLookup_insert]
      · cases hs
    · cases hs
  refine ⟨?_, ?_, ?_, ?_⟩
  · intro h1 h2 h3
    simp [app_installation_path, h1, h2, h3]
  · intro saved hw
    rcases hl : envA.load with _ | c
    · simp only [app_installation_path, hl] at hw ⊢
      rcases hsc : envA.scan with e | r
      · simp [appInstallScanPath, hsc] at hw
      · simp only [appInstallScanPath, hsc] at hw ⊢
        exact hsaveA saved r hw
    · simp only [app_installation_path, hl] at hw ⊢
      by_cases hv : appInstallCacheValid c.timestamp envA.now = true
      · rw [if_pos hv] at hw ⊢
        rcases hlk : alistLookup c.paths app_id with _ | r0
        · rw [hlk] at hw
          rcases hsc : envA.scan with e | r
          · simp [appInstallScanPath, hsc] at hw
          · simp only [appInstallScanPath, hsc] at hw ⊢
            exact hsaveA saved r hw
        · rw [hlk] at hw
          simp at hw
      · rw [if_neg hv] at hw ⊢
        rcases hsc : envA.scan with e | r
        · simp [appInstallScanPath, hsc] at hw
        · simp only [appInstallScanPath, hsc] at hw ⊢
          exact hsaveA saved r hw
  · intro h1 h2 h3
    simp [workshop_path, h1, h2, h3]
  · intro saved hw
    rcases hl : envW.load with _ | c
    · simp only [workshop_path, hl] at hw ⊢
      exact hsaveW saved envW.scan hw
    · simp only [workshop_path, hl] at hw ⊢
      by_cases hv : workshopPathCacheValid c.timestamp envW.now = true
      · rw [if_pos hv] at hw ⊢
        rcases hlk : alistLookup c.paths app_id with _ | r0
        · rw [hlk] at hw
          exact hsaveW saved envW.scan hw
        · rw [hlk] at hw
          simp at hw
      · rw [if_neg hv] at hw ⊢
        exact hsaveW saved envW.scan hw

/-- Concrete environment: a cached `Err` for app 7, 10 seconds old. -/
def envAHit : AppPathEnv :=
  AppPathEnv.mk
    (AppLoadOutcome.ok (AppInstallPathCache.mk
      [(7, Except.error "App 7 is not installed or manifest file not found")] 50))
    60 (ScanOutcome.done (Except.ok "should-not-be-used")) true AppLoadOutcome.fail 0 true

/-- Concrete environment: a cached `None` for app 9, 10 seconds old. -/
def envWHit : WorkshopPathEnv :=
  WorkshopPathEnv.mk
    (WpLoadOutcome.ok (WorkshopPathCache.mk [(9, none)] 50))
    60 (some "should-not-be-used") true WpLoadOutcome.fail 0 true

/-- C10 witness: the cached `Err` for app 7 and the cached `None` for
app 9 are returned as-is, with no scan and no cache write. -/
theorem c10_witness :
    app_installation_path 7 envAHit =
      (Except.error "App 7 is not installed or manifest file not found", false, none) ∧
    workshop_path 9 envWHit = (none, false, none) :=
  ⟨(c10_negative_path_caching 7 envAHit envWHit
      (AppInstallPathCache.mk
        [(7, Except.error "App 7 is not installed or manifest file not found")] 50)
      (WorkshopPathCache.mk [(9, none)] 50)
      (Except.error "App 7 is not installed or manifest file not found") none).1
      rfl (by decide) rfl,
   (c10_negative_path_caching 9 envAHit envWHit
      (AppInstallPathCache.mk
        [(7, Except.error "App 7 is not installed or manifest file not found")] 50)
      (WorkshopPathCache.mk [(9, none)] 50)
      (Except.error "App 7 is not installed or manifest file not found") none).2.2.1
      rfl (by decide) rfl⟩

end S7forge
